import Mathlib

/-!
Verification of the tiny-skia subset: a shallow embedding of the line
clipper (src/line_clipper.rs), the gradient constructor and stage builder
(src/shaders/gradient.rs) and the integer size type (src/int_size.rs).

Scalars (Rust f32/f64) are modelled by the rationals: all the arithmetic
in the embedded code is exact over the rationals, and the double-precision
widening performed by the source is the identity in this model.  External
value types of the crate (Point, Rect, Color, Transform, NormalizedF32,
LengthU32, the scalar helpers) live outside the provided sources; they are
modelled from the spec and kept minimal, each marked in its doc comment.
-/

/-- Scalar values: an idealized (exact, total-ordered) model of f32/f64. -/
abbrev Scalar := ℚ

/-- Modelled from the spec: the numeric tolerance used by the scalar
utilities ("numerically careful comparisons, clamping, nearly-equal
tests"); the value is the default threshold named in the source comment of
src/shaders/gradient.rs, 1/(1 shl 12). -/
def SCALAR_NEARLY_ZERO : Scalar := 1 / 4096

/-- Modelled from the spec: the nearly-zero test of the scalar utilities. -/
def isNearlyZero (x : Scalar) : Bool := |x| ≤ SCALAR_NEARLY_ZERO

/-- Modelled from the spec: the nearly-equal test of the scalar utilities
(comparison "within a numeric tolerance"). -/
def isNearlyEqual (a b : Scalar) : Bool := |a - b| ≤ SCALAR_NEARLY_ZERO

/-- Modelled from the spec: the midpoint average used for degenerate
(near-zero-length) intersection cases. -/
def ave (a b : Scalar) : Scalar := (a + b) / 2

/-- Modelled from the spec: clamping of a value into a lo..hi range
("each later position is bounded below by the previous"). -/
def bound (x lo hi : Scalar) : Scalar := min hi (max lo x)

/-- Modelled from the spec: a point, a pure geometric value type. -/
structure Point where
  x : Scalar
  y : Scalar
deriving DecidableEq, Repr

/-- Modelled from the spec: an axis-aligned rectangle given by its four
edges.  The crate's Rect type guarantees sorted edges; that guarantee is
carried as the validity predicate below. -/
structure Rect where
  left : Scalar
  top : Scalar
  right : Scalar
  bottom : Scalar
deriving DecidableEq, Repr

/-- The crate-level invariant of an axis-aligned rectangle. -/
def Rect.valid (c : Rect) : Prop := c.left ≤ c.right ∧ c.top ≤ c.bottom

instance (c : Rect) : Decidable c.valid := by
  unfold Rect.valid; infer_instance

/-- Embeds MAX_POINTS from src/line_clipper.rs. -/
def MAX_POINTS : Nat := 4

/-- Embeds pin_unsorted_f32 from src/line_clipper.rs: sorts the two limits
and clamps the value between them. -/
def pin_unsorted_f32 (value limit0 limit1 : Scalar) : Scalar :=
  if limit1 < limit0 then
    if value < limit1 then limit1 else if value > limit0 then limit0 else value
  else
    if value < limit0 then limit0 else if value > limit1 then limit1 else value

/-- Embeds pin_unsorted_f64 from src/line_clipper.rs (identical logic at
double precision; exact over the rational model). -/
def pin_unsorted_f64 (value limit0 limit1 : Scalar) : Scalar :=
  if limit1 < limit0 then
    if value < limit1 then limit1 else if value > limit0 then limit0 else value
  else
    if value < limit0 then limit0 else if value > limit1 then limit1 else value

/-- Embeds is_between_unsorted from src/line_clipper.rs. -/
def is_between_unsorted (value limit0 limit1 : Scalar) : Bool :=
  if limit0 < limit1 then
    limit0 ≤ value && value ≤ limit1
  else
    limit1 ≤ value && value ≤ limit0

/-- Embeds sect_with_horizontal from src/line_clipper.rs: the x coordinate
of the intersection of segment p0..p1 with the horizontal line at y. -/
def sect_with_horizontal (p0 p1 : Point) (y : Scalar) : Scalar :=
  if isNearlyZero (p1.y - p0.y) then
    ave p0.x p1.x
  else
    pin_unsorted_f64 (p0.x + (y - p0.y) * (p1.x - p0.x) / (p1.y - p0.y)) p0.x p1.x

/-- Embeds sect_with_vertical from src/line_clipper.rs: the y coordinate
of the intersection of segment p0..p1 with the vertical line at x. -/
def sect_with_vertical (p0 p1 : Point) (x : Scalar) : Scalar :=
  if isNearlyZero (p1.x - p0.x) then
    ave p0.y p1.y
  else
    p0.y + (x - p0.x) * (p1.y - p0.y) / (p1.x - p0.x)

/-- Embeds sect_clamp_with_vertical from src/line_clipper.rs. -/
def sect_clamp_with_vertical (p0 p1 : Point) (x : Scalar) : Scalar :=
  pin_unsorted_f32 (sect_with_vertical p0 p1 x) p0.y p1.y

/-- The y coordinate of src[index1] in clip (the higher-y endpoint,
line 25 of src/line_clipper.rs). -/
def maxY (p0 p1 : Point) : Scalar := if p0.y < p1.y then p1.y else p0.y

/-- The y coordinate of src[index0] in clip (the lower-y endpoint). -/
def minY (p0 p1 : Point) : Scalar := if p0.y < p1.y then p0.y else p1.y

/-- tmp[0] after the y-chop of clip (lines 41-52 of src/line_clipper.rs):
the endpoint originating from src[0], clamped to the top edge when src[0]
is the lower-y endpoint and starts above, to the bottom edge when it is
the higher-y endpoint and ends below. -/
def tmp0 (p0 p1 : Point) (c : Rect) : Point :=
  if p0.y < p1.y then
    if p0.y < c.top then ⟨sect_with_horizontal p0 p1 c.top, c.top⟩ else p0
  else
    if p0.y > c.bottom then ⟨sect_with_horizontal p0 p1 c.bottom, c.bottom⟩ else p0

/-- tmp[1] after the y-chop of clip. -/
def tmp1 (p0 p1 : Point) (c : Rect) : Point :=
  if p0.y < p1.y then
    if p1.y > c.bottom then ⟨sect_with_horizontal p0 p1 c.bottom, c.bottom⟩ else p1
  else
    if p1.y < c.top then ⟨sect_with_horizontal p0 p1 c.top, c.top⟩ else p1

/-- tmp[index0] for the x phase of clip: index0 picked by the x order of
the source points (lines 61-69 of src/line_clipper.rs). -/
def xSorted0 (p0 p1 : Point) (c : Rect) : Point :=
  if p0.x < p1.x then tmp0 p0 p1 c else tmp1 p0 p1 c

/-- tmp[index1] for the x phase of clip. -/
def xSorted1 (p0 p1 : Point) (c : Rect) : Point :=
  if p0.x < p1.x then tmp1 p0 p1 c else tmp0 p0 p1 c

/-- The straddling branch of clip (lines 87-111 of src/line_clipper.rs):
up to two points pinned to the left edge, then up to two pinned to the
right edge, in ascending-x order. -/
def clipMiddle (p0 p1 : Point) (c : Rect) : List Point :=
  (if (xSorted0 p0 p1 c).x < c.left then
    [⟨c.left, (xSorted0 p0 p1 c).y⟩,
     ⟨c.left, sect_clamp_with_vertical (tmp0 p0 p1 c) (tmp1 p0 p1 c) c.left⟩]
  else [xSorted0 p0 p1 c])
  ++
  (if (xSorted1 p0 p1 c).x > c.right then
    [⟨c.right, sect_clamp_with_vertical (tmp0 p0 p1 c) (tmp1 p0 p1 c) c.right⟩,
     ⟨c.right, (xSorted1 p0 p1 c).y⟩]
  else [xSorted1 p0 p1 c])

/-- The x phase of clip (lines 54-124 of src/line_clipper.rs), applied to
a segment already chopped in y: collapse to the left or right edge when
wholly outside, otherwise chop in x; the result is copied out reversed
when the source ran right-to-left. -/
def clipInner (p0 p1 : Point) (c : Rect) (can_cull_to_the_right : Bool) : List Point :=
  if (xSorted1 p0 p1 c).x ≤ c.left then
    [⟨c.left, (tmp0 p0 p1 c).y⟩, ⟨c.left, (tmp1 p0 p1 c).y⟩]
  else if (xSorted0 p0 p1 c).x ≥ c.right then
    if can_cull_to_the_right then []
    else [⟨c.right, (tmp0 p0 p1 c).y⟩, ⟨c.right, (tmp1 p0 p1 c).y⟩]
  else
    if p0.x < p1.x then clipMiddle p0 p1 c else (clipMiddle p0 p1 c).reverse

/-- Embeds clip from src/line_clipper.rs: clip segment p0..p1 against the
rectangle, returning the chain of points whose consecutive pairs are the
emitted segments. -/
def clip (p0 p1 : Point) (c : Rect) (can_cull_to_the_right : Bool) : List Point :=
  if maxY p0 p1 ≤ c.top then []
  else if minY p0 p1 ≥ c.bottom then []
  else clipInner p0 p1 c can_cull_to_the_right

/-! Helper lemmas about the clipper. -/

theorem maxY_eq (p0 p1 : Point) : maxY p0 p1 = max p0.y p1.y := by
  unfold maxY
  rcases lt_or_ge p0.y p1.y with h | h
  · simp [h, max_eq_right h.le]
  · simp [not_lt.mpr h, max_eq_left h]

theorem minY_eq (p0 p1 : Point) : minY p0 p1 = min p0.y p1.y := by
  unfold minY
  rcases lt_or_ge p0.y p1.y with h | h
  · simp [h, min_eq_left h.le]
  · simp [not_lt.mpr h, min_eq_right h]

theorem pin_f32_between (v l0 l1 : Scalar) :
    min l0 l1 ≤ pin_unsorted_f32 v l0 l1 ∧ pin_unsorted_f32 v l0 l1 ≤ max l0 l1 := by
  unfold pin_unsorted_f32
  split_ifs <;> constructor <;> simp [min_def, max_def] <;> split_ifs <;> linarith

theorem pin_f32_sorted (v l0 l1 : Scalar) (h : l0 ≤ l1) :
    pin_unsorted_f32 v l0 l1 = if v < l0 then l0 else if v > l1 then l1 else v := by
  unfold pin_unsorted_f32
  split_ifs <;> first | rfl | linarith

theorem tmp0_y_pin (p0 p1 : Point) (c : Rect)
    (h1 : ¬ maxY p0 p1 ≤ c.top) (h2 : ¬ minY p0 p1 ≥ c.bottom) (hv : c.top ≤ c.bottom) :
    (tmp0 p0 p1 c).y = pin_unsorted_f32 p0.y c.top c.bottom := by
  rw [pin_f32_sorted _ _ _ hv]
  unfold tmp0
  unfold maxY at h1
  unfold minY at h2
  split_ifs at * <;> first | rfl | linarith

theorem tmp1_y_pin (p0 p1 : Point) (c : Rect)
    (h1 : ¬ maxY p0 p1 ≤ c.top) (h2 : ¬ minY p0 p1 ≥ c.bottom) (hv : c.top ≤ c.bottom) :
    (tmp1 p0 p1 c).y = pin_unsorted_f32 p1.y c.top c.bottom := by
  rw [pin_f32_sorted _ _ _ hv]
  unfold tmp1
  unfold maxY at h1
  unfold minY at h2
  split_ifs at * <;> first | rfl | linarith

theorem tmp0_y_bounds (p0 p1 : Point) (c : Rect)
    (h1 : ¬ maxY p0 p1 ≤ c.top) (h2 : ¬ minY p0 p1 ≥ c.bottom) (hv : c.top ≤ c.bottom) :
    c.top ≤ (tmp0 p0 p1 c).y ∧ (tmp0 p0 p1 c).y ≤ c.bottom := by
  rw [tmp0_y_pin p0 p1 c h1 h2 hv]
  have h := pin_f32_between p0.y c.top c.bottom
  rw [min_eq_left hv, max_eq_right hv] at h
  exact h

theorem tmp1_y_bounds (p0 p1 : Point) (c : Rect)
    (h1 : ¬ maxY p0 p1 ≤ c.top) (h2 : ¬ minY p0 p1 ≥ c.bottom) (hv : c.top ≤ c.bottom) :
    c.top ≤ (tmp1 p0 p1 c).y ∧ (tmp1 p0 p1 c).y ≤ c.bottom := by
  rw [tmp1_y_pin p0 p1 c h1 h2 hv]
  have h := pin_f32_between p1.y c.top c.bottom
  rw [min_eq_left hv, max_eq_right hv] at h
  exact h

theorem sect_clamp_bounds (p0 p1 : Point) (x lo hi : Scalar)
    (h0 : lo ≤ p0.y ∧ p0.y ≤ hi) (h1 : lo ≤ p1.y ∧ p1.y ≤ hi) :
    lo ≤ sect_clamp_with_vertical p0 p1 x ∧ sect_clamp_with_vertical p0 p1 x ≤ hi := by
  unfold sect_clamp_with_vertical
  have h := pin_f32_between (sect_with_vertical p0 p1 x) p0.y p1.y
  constructor
  · exact le_trans (le_min h0.1 h1.1) h.1
  · exact le_trans h.2 (max_le h0.2 h1.2)

/-- C3: a segment whose y-extent lies entirely above or entirely below the
clip rectangle is rejected: clip returns the empty slice, so the segment
contributes no replacement edge. -/
theorem clip_fully_outside_y_is_empty (p0 p1 : Point) (c : Rect) (cull : Bool)
    (h : max p0.y p1.y ≤ c.top ∨ c.bottom ≤ min p0.y p1.y) :
    clip p0 p1 c cull = [] := by
  unfold clip
  rw [maxY_eq, minY_eq]
  split_ifs with h1 h2
  · rfl
  · rfl
  · rcases h with h | h
    · exact absurd h h1
    · exact absurd h h2

/-- Witness for C3 at a concrete segment above the rectangle. -/
theorem clip_fully_outside_y_is_empty_witness :
    clip ⟨0, 0⟩ ⟨1, 1⟩ ⟨0, 2, 4, 5⟩ false = [] :=
  clip_fully_outside_y_is_empty ⟨0, 0⟩ ⟨1, 1⟩ ⟨0, 2, 4, 5⟩ false (Or.inl (by decide))

/-- C4: the clipper emits between 0 and 3 connected segments: the returned
chain of points never exceeds the four-point output buffer (MAX_POINTS)
and is never a single point, so a nonempty result is 1 to 3 segments whose
consecutive segments share their common endpoint by construction. -/
theorem clip_output_size_bounded (p0 p1 : Point) (c : Rect) (cull : Bool) :
    (clip p0 p1 c cull).length ≤ MAX_POINTS ∧ (clip p0 p1 c cull).length ≠ 1 := by
  unfold clip clipInner clipMiddle MAX_POINTS
  split_ifs <;> simp [List.length_append]


theorem clipMiddle_mem_bounds (p0 p1 : Point) (c : Rect) (p : Point)
    (hlr : c.left ≤ c.right)
    (ht0 : c.top ≤ (tmp0 p0 p1 c).y ∧ (tmp0 p0 p1 c).y ≤ c.bottom)
    (ht1 : c.top ≤ (tmp1 p0 p1 c).y ∧ (tmp1 p0 p1 c).y ≤ c.bottom)
    (hb1 : ¬ (xSorted1 p0 p1 c).x ≤ c.left)
    (hb2 : ¬ (xSorted0 p0 p1 c).x ≥ c.right)
    (hp : p ∈ clipMiddle p0 p1 c) :
    c.left ≤ p.x ∧ p.x ≤ c.right ∧ c.top ≤ p.y ∧ p.y ≤ c.bottom := by
  have hx0 : xSorted0 p0 p1 c = tmp0 p0 p1 c ∨ xSorted0 p0 p1 c = tmp1 p0 p1 c := by
    unfold xSorted0; split_ifs <;> simp
  have hx1 : xSorted1 p0 p1 c = tmp0 p0 p1 c ∨ xSorted1 p0 p1 c = tmp1 p0 p1 c := by
    unfold xSorted1; split_ifs <;> simp
  have hys0 : c.top ≤ (xSorted0 p0 p1 c).y ∧ (xSorted0 p0 p1 c).y ≤ c.bottom := by
    rcases hx0 with h | h <;> rw [h] <;> assumption
  have hys1 : c.top ≤ (xSorted1 p0 p1 c).y ∧ (xSorted1 p0 p1 c).y ≤ c.bottom := by
    rcases hx1 with h | h <;> rw [h] <;> assumption
  have hsc : ∀ x : Scalar,
      c.top ≤ sect_clamp_with_vertical (tmp0 p0 p1 c) (tmp1 p0 p1 c) x ∧
      sect_clamp_with_vertical (tmp0 p0 p1 c) (tmp1 p0 p1 c) x ≤ c.bottom :=
    fun x => sect_clamp_bounds _ _ x c.top c.bottom ht0 ht1
  unfold clipMiddle at hp
  rw [List.mem_append] at hp
  rcases hp with hp | hp
  · split_ifs at hp with m
    · simp only [List.mem_cons, List.not_mem_nil, or_false] at hp
      rcases hp with rfl | rfl
      · exact ⟨le_refl _, hlr, hys0.1, hys0.2⟩
      · exact ⟨le_refl _, hlr, (hsc c.left).1, (hsc c.left).2⟩
    · simp only [List.mem_cons, List.not_mem_nil, or_false] at hp
      rcases hp with rfl
      exact ⟨not_lt.mp m, (not_le.mp hb2).le, hys0.1, hys0.2⟩
  · split_ifs at hp with m
    · simp only [List.mem_cons, List.not_mem_nil, or_false] at hp
      rcases hp with rfl | rfl
      · exact ⟨hlr, le_refl _, (hsc c.right).1, (hsc c.right).2⟩
      · exact ⟨hlr, le_refl _, hys1.1, hys1.2⟩
    · simp only [List.mem_cons, List.not_mem_nil, or_false] at hp
      rcases hp with rfl
      exact ⟨(not_le.mp hb1).le, not_lt.mp m, hys1.1, hys1.2⟩

/-- C2: every point emitted by clip lies within the clip rectangle: its x
coordinate within [left, right] and its y coordinate within [top, bottom]. -/
theorem clip_points_within_rect (p0 p1 : Point) (c : Rect) (cull : Bool)
    (hv : c.valid) (p : Point) (hp : p ∈ clip p0 p1 c cull) :
    c.left ≤ p.x ∧ p.x ≤ c.right ∧ c.top ≤ p.y ∧ p.y ≤ c.bottom := by
  obtain ⟨hlr, htb⟩ := hv
  unfold clip at hp
  split_ifs at hp with h1 h2
  · simp at hp
  · simp at hp
  · have ht0 := tmp0_y_bounds p0 p1 c h1 h2 htb
    have ht1 := tmp1_y_bounds p0 p1 c h1 h2 htb
    unfold clipInner at hp
    split_ifs at hp with hb1 hb2 hbc
    · simp only [List.mem_cons, List.not_mem_nil, or_false] at hp
      rcases hp with rfl | rfl
      · exact ⟨le_refl _, hlr, ht0.1, ht0.2⟩
      · exact ⟨le_refl _, hlr, ht1.1, ht1.2⟩
    · simp at hp
    · simp only [List.mem_cons, List.not_mem_nil, or_false] at hp
      rcases hp with rfl | rfl
      · exact ⟨hlr, le_refl _, ht0.1, ht0.2⟩
      · exact ⟨hlr, le_refl _, ht1.1, ht1.2⟩
    · exact clipMiddle_mem_bounds p0 p1 c p hlr ht0 ht1 hb1 hb2 hp
    · exact clipMiddle_mem_bounds p0 p1 c p hlr ht0 ht1 hb1 hb2
        ((List.mem_reverse).mp hp)

/-- Witness for C2 at a concrete point of a clipped diagonal segment. -/
theorem clip_points_within_rect_witness :
    (0 : Scalar) ≤ (⟨0, 0⟩ : Point).x ∧ (⟨0, 0⟩ : Point).x ≤ 4 ∧
    (0 : Scalar) ≤ (⟨0, 0⟩ : Point).y ∧ (⟨0, 0⟩ : Point).y ≤ 4 :=
  clip_points_within_rect ⟨-5, -5⟩ ⟨10, 10⟩ ⟨0, 0, 4, 4⟩ false
    ⟨by norm_num, by norm_num⟩ ⟨0, 0⟩
    (by norm_num [clip, maxY, minY, clipInner, clipMiddle, xSorted0, xSorted1, tmp0, tmp1,
      sect_with_horizontal, sect_with_vertical, sect_clamp_with_vertical,
      pin_unsorted_f32, pin_unsorted_f64, isNearlyZero, ave, SCALAR_NEARLY_ZERO,
      Point.mk.injEq])

theorem clipMiddle_head? (p0 p1 : Point) (c : Rect) :
    (clipMiddle p0 p1 c).head? =
      some (if (xSorted0 p0 p1 c).x < c.left then ⟨c.left, (xSorted0 p0 p1 c).y⟩
            else xSorted0 p0 p1 c) := by
  unfold clipMiddle
  split_ifs <;> rfl

theorem clipMiddle_getLast? (p0 p1 : Point) (c : Rect) :
    (clipMiddle p0 p1 c).getLast? =
      some (if (xSorted1 p0 p1 c).x > c.right then ⟨c.right, (xSorted1 p0 p1 c).y⟩
            else xSorted1 p0 p1 c) := by
  unfold clipMiddle
  split_ifs <;> rfl

theorem clipMiddle_head_y (p0 p1 : Point) (c : Rect) (q : Point)
    (hq : q ∈ (clipMiddle p0 p1 c).head?) : q.y = (xSorted0 p0 p1 c).y := by
  rw [clipMiddle_head?] at hq
  simp only [Option.mem_def, Option.some.injEq] at hq
  subst hq
  split_ifs <;> rfl

theorem clipMiddle_getLast_y (p0 p1 : Point) (c : Rect) (q : Point)
    (hq : q ∈ (clipMiddle p0 p1 c).getLast?) : q.y = (xSorted1 p0 p1 c).y := by
  rw [clipMiddle_getLast?] at hq
  simp only [Option.mem_def, Option.some.injEq] at hq
  subst hq
  split_ifs <;> rfl

/-- C1: the clipper preserves the winding order of the input segment: the
first point of the emitted chain carries the clamped y of src[0] and the
last point the clamped y of src[1], so the output read first-to-last runs
in the input's direction; relative to the sorted-by-y direction this is
reversed exactly when the original higher-y endpoint was the start. -/
theorem clip_preserves_winding (p0 p1 : Point) (c : Rect) (cull : Bool) (hv : c.valid) :
    (∀ q ∈ (clip p0 p1 c cull).head?, q.y = pin_unsorted_f32 p0.y c.top c.bottom) ∧
    (∀ q ∈ (clip p0 p1 c cull).getLast?, q.y = pin_unsorted_f32 p1.y c.top c.bottom) := by
  obtain ⟨hlr, htb⟩ := hv
  unfold clip
  split_ifs with h1 h2
  · simp
  · simp
  · have e0 := tmp0_y_pin p0 p1 c h1 h2 htb
    have e1 := tmp1_y_pin p0 p1 c h1 h2 htb
    rw [← e0, ← e1]
    unfold clipInner
    split_ifs with hb1 hb2 hbc hx
    · constructor
      · intro q hq
        simp only [List.head?_cons, Option.mem_def, Option.some.injEq] at hq
        subst hq; rfl
      · intro q hq
        have : ([(⟨c.left, (tmp0 p0 p1 c).y⟩ : Point), ⟨c.left, (tmp1 p0 p1 c).y⟩]).getLast?
            = some ⟨c.left, (tmp1 p0 p1 c).y⟩ := rfl
        rw [this] at hq
        simp only [Option.mem_def, Option.some.injEq] at hq
        subst hq; rfl
    · simp
    · constructor
      · intro q hq
        simp only [List.head?_cons, Option.mem_def, Option.some.injEq] at hq
        subst hq; rfl
      · intro q hq
        have : ([(⟨c.right, (tmp0 p0 p1 c).y⟩ : Point), ⟨c.right, (tmp1 p0 p1 c).y⟩]).getLast?
            = some ⟨c.right, (tmp1 p0 p1 c).y⟩ := rfl
        rw [this] at hq
        simp only [Option.mem_def, Option.some.injEq] at hq
        subst hq; rfl
    · -- forward emission: src runs left-to-right
      have hx0 : xSorted0 p0 p1 c = tmp0 p0 p1 c := by unfold xSorted0; rw [if_pos hx]
      have hx1 : xSorted1 p0 p1 c = tmp1 p0 p1 c := by unfold xSorted1; rw [if_pos hx]
      constructor
      · intro q hq
        rw [clipMiddle_head_y p0 p1 c q hq, hx0]
      · intro q hq
        rw [clipMiddle_getLast_y p0 p1 c q hq, hx1]
    · -- reversed emission: src runs right-to-left
      have hx0 : xSorted0 p0 p1 c = tmp1 p0 p1 c := by unfold xSorted0; rw [if_neg hx]
      have hx1 : xSorted1 p0 p1 c = tmp0 p0 p1 c := by unfold xSorted1; rw [if_neg hx]
      constructor
      · intro q hq
        rw [List.head?_reverse] at hq
        rw [clipMiddle_getLast_y p0 p1 c q hq, hx1]
      · intro q hq
        have hq' : q ∈ (clipMiddle p0 p1 c).head? := by
          have := List.head?_reverse (clipMiddle p0 p1 c).reverse
          rw [List.reverse_reverse] at this
          rw [← this] at hq
          exact hq
        rw [clipMiddle_head_y p0 p1 c q hq', hx0]

/-- Witness for C1 at a concrete right-to-left segment crossing the top
and bottom edges. -/
theorem clip_preserves_winding_witness :
    (∀ q ∈ (clip ⟨2, 0⟩ ⟨2, 10⟩ ⟨0, 1, 4, 5⟩ false).head?,
      q.y = pin_unsorted_f32 (⟨2, 0⟩ : Point).y 1 5) ∧
    (∀ q ∈ (clip ⟨2, 0⟩ ⟨2, 10⟩ ⟨0, 1, 4, 5⟩ false).getLast?,
      q.y = pin_unsorted_f32 (⟨2, 10⟩ : Point).y 1 5) :=
  clip_preserves_winding ⟨2, 0⟩ ⟨2, 10⟩ ⟨0, 1, 4, 5⟩ false ⟨by norm_num, by norm_num⟩

theorem isNearlyZero_false_ne_zero (d : Scalar) (h : isNearlyZero d = false) : d ≠ 0 := by
  intro h0
  subst h0
  simp only [isNearlyZero, SCALAR_NEARLY_ZERO, abs_zero, decide_eq_false_iff_not, not_le] at h
  norm_num at h

/-- C8: the intersection helpers branch on a nearly-zero extent along the
division axis: in the degenerate case they return the midpoint average of
the endpoint coordinates, and the dividing branch is taken only when the
divisor is not nearly zero, hence nonzero, so the division is well
defined (no NaN or infinity in the exact model). -/
theorem sect_degenerate_midpoint (p0 p1 : Point) (y x : Scalar) :
    (isNearlyZero (p1.y - p0.y) = true → sect_with_horizontal p0 p1 y = ave p0.x p1.x) ∧
    (isNearlyZero (p1.y - p0.y) = false →
      p1.y - p0.y ≠ 0 ∧
      sect_with_horizontal p0 p1 y =
        pin_unsorted_f64 (p0.x + (y - p0.y) * (p1.x - p0.x) / (p1.y - p0.y)) p0.x p1.x) ∧
    (isNearlyZero (p1.x - p0.x) = true → sect_with_vertical p0 p1 x = ave p0.y p1.y) ∧
    (isNearlyZero (p1.x - p0.x) = false →
      p1.x - p0.x ≠ 0 ∧
      sect_with_vertical p0 p1 x = p0.y + (x - p0.x) * (p1.y - p0.y) / (p1.x - p0.x)) := by
  refine ⟨fun h => ?_, fun h => ⟨isNearlyZero_false_ne_zero _ h, ?_⟩,
          fun h => ?_, fun h => ⟨isNearlyZero_false_ne_zero _ h, ?_⟩⟩ <;>
    simp [sect_with_horizontal, sect_with_vertical, h]

/-- Witness for C8: a non-degenerate horizontal intersection takes the
dividing branch with a nonzero divisor, and a degenerate vertical
intersection returns the midpoint average. -/
theorem sect_degenerate_midpoint_witness :
    ((⟨3, 4⟩ : Point).y - (⟨0, 0⟩ : Point).y ≠ 0 ∧
      sect_with_horizontal ⟨0, 0⟩ ⟨3, 4⟩ 2 =
        pin_unsorted_f64
          ((⟨0, 0⟩ : Point).x +
            (2 - (⟨0, 0⟩ : Point).y) * ((⟨3, 4⟩ : Point).x - (⟨0, 0⟩ : Point).x) /
              ((⟨3, 4⟩ : Point).y - (⟨0, 0⟩ : Point).y))
          (⟨0, 0⟩ : Point).x (⟨3, 4⟩ : Point).x) ∧
    sect_with_vertical ⟨0, 0⟩ ⟨0, 4⟩ 1 = ave (⟨0, 0⟩ : Point).y (⟨0, 4⟩ : Point).y :=
  ⟨(sect_degenerate_midpoint ⟨0, 0⟩ ⟨3, 4⟩ 2 1).2.1
      (by simp [isNearlyZero, SCALAR_NEARLY_ZERO]; norm_num),
   (sect_degenerate_midpoint ⟨0, 0⟩ ⟨0, 4⟩ 2 1).2.2.1
      (by simp [isNearlyZero, SCALAR_NEARLY_ZERO])⟩

/-! The gradient constructor and stage builder (src/shaders/gradient.rs). -/

/-- Modelled from the spec: an RGBA color; channel values are scalars,
fully opaque means alpha = 1 (the Color type lives outside src/). -/
structure Color where
  red : Scalar
  green : Scalar
  blue : Scalar
  alpha : Scalar
deriving DecidableEq, Repr

/-- Modelled from the spec: whether a color is fully opaque
(embeds Color::is_opaque). -/
def Color.full_alpha (c : Color) : Bool := c.alpha == 1

/-- Modelled from the spec: an affine transform matrix; an opaque value
type here, consumed unchanged by the pipeline's coordinate stage. -/
structure Transform where
  sx : Scalar
  kx : Scalar
  ky : Scalar
  sy : Scalar
  tx : Scalar
  ty : Scalar
deriving DecidableEq, Repr

/-- Modelled from the spec: the tiling policy (pad/repeat/reflect) for
parametric shader values outside [0,1]. -/
inductive SpreadMode where
  | Pad
  | Repeat
  | Reflect
deriving DecidableEq, Repr

/-- Modelled from the spec: NormalizedF32 construction that clamps an
arbitrary scalar into the [0,1] range (the source doc comment of
GradientStop::new: the position will be clamped to a 0..1 range). -/
def clamp01 (x : Scalar) : Scalar := if x < 0 then 0 else if x > 1 then 1 else x

/-- Embeds GradientStop from src/shaders/gradient.rs. -/
structure GradientStop where
  position : Scalar
  color : Color
deriving DecidableEq, Repr

/-- Embeds GradientStop::new from src/shaders/gradient.rs. -/
def GradientStop.new (position : Scalar) (color : Color) : GradientStop :=
  ⟨clamp01 position, color⟩

/-- points[0].position.get() with the source's convention; 0 on an empty
list (the source debug-asserts at least two stops). -/
def firstPos (l : List GradientStop) : Scalar := (l.head?.map GradientStop.position).getD 0

/-- points[0].color, transparent on an empty list. -/
def firstColor (l : List GradientStop) : Color := (l.head?.map GradientStop.color).getD ⟨0, 0, 0, 0⟩

/-- points[len-1].position.get(), 0 on an empty list. -/
def lastPos (l : List GradientStop) : Scalar := (l.getLast?.map GradientStop.position).getD 0

/-- points[len-1].color, transparent on an empty list. -/
def lastColor (l : List GradientStop) : Color := (l.getLast?.map GradientStop.color).getD ⟨0, 0, 0, 0⟩

/-- The dummy-insertion step of Gradient::new (lines 63-73 of
src/shaders/gradient.rs): bracket the stop list by [0, 1], inserting a
synthetic stop reusing the adjacent color at either end when missing. -/
def withDummies (stops : List GradientStop) : List GradientStop :=
  let pts1 := if firstPos stops ≠ 0 then GradientStop.new 0 (firstColor stops) :: stops else stops
  if lastPos stops ≠ 1 then pts1 ++ [GradientStop.new 1 (lastColor pts1)] else pts1

/-- start_index of the normalization loop in Gradient::new (line 78). -/
def startIndex (stops : List GradientStop) : Nat := if firstPos stops ≠ 0 then 0 else 1

/-- The normalization loop of Gradient::new (lines 79-93 of
src/shaders/gradient.rs), run over the stops from start_index with the
running prev value: each position is clamped into [prev, 1], the final
one is forced to exactly 1, and the uniformity flag accumulates whether
each consecutive gap is nearly equal to uniform_step. -/
def normStops : List GradientStop → Scalar → Scalar → List GradientStop × Bool
  | [], _, _ => ([], true)
  | [s], prev, step => ([⟨clamp01 1, s.color⟩], isNearlyEqual step (1 - prev))
  | s :: t :: rest, prev, step =>
    (⟨clamp01 (bound s.position prev 1), s.color⟩ ::
       (normStops (t :: rest) (bound s.position prev 1) step).1,
     isNearlyEqual step (bound s.position prev 1 - prev) &&
       (normStops (t :: rest) (bound s.position prev 1) step).2)

/-- Embeds the Gradient struct from src/shaders/gradient.rs; the field
colors_full_alpha embeds the source field recording that every stop color
is fully opaque. -/
structure Gradient where
  points : List GradientStop
  tile_mode : SpreadMode
  local_transform : Transform
  points_to_unit : Transform
  colors_full_alpha : Bool
  has_uniform_stops : Bool
deriving DecidableEq, Repr

/-- Embeds Gradient::new from src/shaders/gradient.rs: insert the dummy
stops, record opacity, then normalize positions from start_index with
uniform_step = points[start_index].position - 0 (taken after the dummy
insertion, as the source does). -/
def Gradient.new (stops : List GradientStop) (tile_mode : SpreadMode)
    (local_transform points_to_unit : Transform) : Gradient :=
  let pts2 := withDummies stops
  let si := startIndex stops
  let step := firstPos (pts2.drop si)
  { points := pts2.take si ++ (normStops (pts2.drop si) 0 step).1,
    tile_mode := tile_mode,
    local_transform := local_transform,
    points_to_unit := points_to_unit,
    colors_full_alpha := pts2.all (fun p => p.color.full_alpha),
    has_uniform_stops := (normStops (pts2.drop si) 0 step).2 }

theorem clamp01_eq_clamp (x : Scalar) : clamp01 x = max 0 (min 1 x) := by
  unfold clamp01
  rw [max_def, min_def]
  split_ifs <;> linarith

theorem clamp01_of_mem (x : Scalar) (h0 : 0 ≤ x) (h1 : x ≤ 1) : clamp01 x = x := by
  unfold clamp01
  rw [if_neg (not_lt.mpr h0), if_neg (not_lt.mpr h1)]

theorem bound_mem (x prev : Scalar) (h1 : prev ≤ 1) :
    prev ≤ bound x prev 1 ∧ bound x prev 1 ≤ 1 := by
  unfold bound
  exact ⟨le_min h1 (le_max_left prev x), min_le_left 1 _⟩

/-- C10: GradientStop::new stores the color unchanged and the position
clamped into [0,1]: the stored position is max(0, min(1, position)). -/
theorem gradient_stop_new_clamps (p : Scalar) (col : Color) :
    (GradientStop.new p col).color = col ∧
    (GradientStop.new p col).position = max 0 (min 1 p) :=
  ⟨rfl, clamp01_eq_clamp p⟩

theorem normStops_spec (l : List GradientStop) :
    ∀ (prev step : Scalar), 0 ≤ prev → prev ≤ 1 →
    (∀ s ∈ (normStops l prev step).1, prev ≤ s.position ∧ s.position ≤ 1) ∧
    List.Chain' (· ≤ ·) ((normStops l prev step).1.map GradientStop.position) ∧
    (normStops l prev step).1.length = l.length ∧
    (l ≠ [] → ((normStops l prev step).1.getLast?.map GradientStop.position) = some 1) := by
  induction l with
  | nil =>
    intro prev step h0 h1
    simp [normStops]
  | cons s tail ih =>
    intro prev step h0 h1
    cases tail with
    | nil =>
      have hone : clamp01 (1 : Scalar) = 1 := clamp01_of_mem 1 (by norm_num) (by norm_num)
      refine ⟨?_, ?_, ?_, ?_⟩
      · intro s' hs'
        simp only [normStops, hone, List.mem_cons, List.not_mem_nil, or_false] at hs'
        subst hs'
        exact ⟨h1, le_refl 1⟩
      · simp [normStops]
      · simp [normStops]
      · intro _
        simp [normStops, hone]
    | cons t rest =>
      have hb := bound_mem s.position prev h1
      have h0c : (0 : Scalar) ≤ bound s.position prev 1 := le_trans h0 hb.1
      have hcl : clamp01 (bound s.position prev 1) = bound s.position prev 1 :=
        clamp01_of_mem _ h0c hb.2
      obtain ⟨ihmem, ihchain, ihlen, ihlast⟩ := ih (bound s.position prev 1) step h0c hb.2
      have hne : (normStops (t :: rest) (bound s.position prev 1) step).1 ≠ [] := by
        intro hcon
        rw [hcon] at ihlen
        simp at ihlen
      refine ⟨?_, ?_, ?_, ?_⟩
      · intro s' hs'
        simp only [normStops, List.mem_cons] at hs'
        rcases hs' with rfl | hs'
        · exact ⟨by simpa [hcl] using hb.1, by simpa [hcl] using hb.2⟩
        · exact ⟨le_trans hb.1 (ihmem s' hs').1, (ihmem s' hs').2⟩
      · show List.Chain' (· ≤ ·) (((⟨clamp01 (bound s.position prev 1), s.color⟩ : GradientStop) ::
          (normStops (t :: rest) (bound s.position prev 1) step).1).map GradientStop.position)
        rw [List.map_cons, List.chain'_cons']
        refine ⟨?_, ihchain⟩
        intro b hbm
        rw [List.head?_map] at hbm
        simp only [Option.mem_def, Option.map_eq_some'] at hbm
        obtain ⟨s'', hs'', rfl⟩ := hbm
        have : s'' ∈ (normStops (t :: rest) (bound s.position prev 1) step).1 :=
          List.mem_of_mem_head? hs''
        simpa [hcl] using (ihmem s'' this).1
      · simp [normStops, ihlen]
      · intro _
        obtain ⟨b, l', hb'⟩ :=
          List.exists_cons_of_ne_nil hne
        show (((⟨clamp01 (bound s.position prev 1), s.color⟩ : GradientStop) ::
          (normStops (t :: rest) (bound s.position prev 1) step).1).getLast?.map
            GradientStop.position) = some 1
        rw [hb', List.getLast?_cons_cons, ← hb']
        exact ihlast (by simp)

theorem withDummies_of_dummy_first (stops : List GradientStop) (hd : firstPos stops ≠ 0)
    (hne : stops ≠ []) :
    ∃ rest2, withDummies stops = GradientStop.new 0 (firstColor stops) :: rest2 ∧ rest2 ≠ [] := by
  unfold withDummies
  rw [if_pos hd]
  split_ifs with hl
  · exact ⟨stops ++ [GradientStop.new 1
      (lastColor (GradientStop.new 0 (firstColor stops) :: stops))],
      by simp, by simp⟩
  · exact ⟨stops, rfl, hne⟩

theorem withDummies_of_first_zero (s0 : GradientStop) (tail : List GradientStop)
    (hd : firstPos (s0 :: tail) = 0) (hne : tail ≠ []) :
    ∃ rest2, withDummies (s0 :: tail) = s0 :: rest2 ∧ rest2 ≠ [] := by
  unfold withDummies
  split_ifs
  · rename_i h1 h2
    exact absurd hd h1
  · rename_i h1 h2
    exact absurd hd h1
  · rename_i h1 h2
    exact ⟨tail ++ [GradientStop.new 1 (lastColor (s0 :: tail))], by simp, by simp⟩
  · rename_i h1 h2
    exact ⟨tail, rfl, hne⟩

theorem gradient_new_points_eq (stops : List GradientStop) (tm : SpreadMode)
    (lt ptu : Transform) :
    (Gradient.new stops tm lt ptu).points =
      (withDummies stops).take (startIndex stops) ++
        (normStops ((withDummies stops).drop (startIndex stops)) 0
          (firstPos ((withDummies stops).drop (startIndex stops)))).1 := rfl

/-- C5: after Gradient::new on at least two stops, the stored stop list
starts at position exactly 0, ends at position exactly 1 (synthetic stops
having been inserted when the caller omitted them) and its positions are
non-decreasing throughout. -/
theorem gradient_new_normalizes (stops : List GradientStop) (tm : SpreadMode)
    (lt ptu : Transform) (h : 2 ≤ stops.length) :
    firstPos (Gradient.new stops tm lt ptu).points = 0 ∧
    lastPos (Gradient.new stops tm lt ptu).points = 1 ∧
    List.Chain' (· ≤ ·) ((Gradient.new stops tm lt ptu).points.map GradientStop.position) := by
  have hne : stops ≠ [] := by
    intro hcon; rw [hcon] at h; simp at h
  rw [gradient_new_points_eq]
  by_cases hd : firstPos stops ≠ 0
  · -- a synthetic first stop is inserted; the loop starts at index 0
    have hsi : startIndex stops = 0 := by simp [startIndex, hd]
    obtain ⟨rest2, hw, hrne⟩ := withDummies_of_dummy_first stops hd hne
    obtain ⟨r, rs, hr⟩ := List.exists_cons_of_ne_nil hrne
    rw [hsi, hw, hr]
    simp only [List.take_zero, List.drop_zero, List.nil_append]
    have hd0 : (GradientStop.new 0 (firstColor stops)).position = 0 :=
      clamp01_of_mem 0 (le_refl 0) (by norm_num)
    have hb0 : bound (GradientStop.new 0 (firstColor stops)).position 0 1 = 0 := by
      rw [hd0]
      unfold bound
      rw [max_self, min_eq_right (by norm_num : (0:Scalar) ≤ 1)]
    obtain ⟨hmem, hchain, hlen, hlast⟩ :=
      normStops_spec (GradientStop.new 0 (firstColor stops) :: r :: rs) 0
        (firstPos (GradientStop.new 0 (firstColor stops) :: r :: rs))
        (le_refl 0) (by norm_num)
    refine ⟨?_, ?_, hchain⟩
    · simp only [normStops, firstPos, List.head?_cons, Option.map_some', Option.getD_some]
      rw [hb0]
      exact clamp01_of_mem 0 (le_refl 0) (by norm_num)
    · have := hlast (by simp)
      unfold lastPos
      rw [this]
      rfl
  · -- the first stop already sits at 0; the loop starts at index 1
    push_neg at hd
    have hsi : startIndex stops = 1 := by simp [startIndex, hd]
    obtain ⟨s0, tail, hs⟩ := List.exists_cons_of_ne_nil hne
    subst hs
    have htne : tail ≠ [] := by
      intro hcon
      rw [hcon] at h
      simp at h
    obtain ⟨rest2, hw, hrne⟩ := withDummies_of_first_zero s0 tail hd htne
    rw [hsi, hw]
    simp only [List.take_succ_cons, List.take_zero, List.drop_succ_cons, List.drop_zero]
    obtain ⟨hmem, hchain, hlen, hlast⟩ :=
      normStops_spec rest2 0 (firstPos rest2) (le_refl 0) (by norm_num)
    have hnne : (normStops rest2 0 (firstPos rest2)).1 ≠ [] := by
      intro hcon
      rw [hcon] at hlen
      exact hrne (List.eq_nil_of_length_eq_zero hlen.symm)
    refine ⟨?_, ?_, ?_⟩
    · have hfp : firstPos (s0 :: tail) = s0.position := by simp [firstPos]
      simp only [List.singleton_append, firstPos, List.head?_cons, Option.map_some',
        Option.getD_some]
      rw [← hfp, hd]
    · obtain ⟨b, l', hb'⟩ := List.exists_cons_of_ne_nil hnne
      unfold lastPos
      rw [List.singleton_append, hb', List.getLast?_cons_cons, ← hb']
      rw [hlast hrne]
      rfl
    · rw [List.singleton_append, List.map_cons, List.chain'_cons']
      refine ⟨?_, hchain⟩
      intro b hbm
      rw [List.head?_map] at hbm
      simp only [Option.mem_def, Option.map_eq_some'] at hbm
      obtain ⟨s'', hs'', rfl⟩ := hbm
      have hs0 : s0.position = 0 := by
        have hfp : firstPos (s0 :: tail) = s0.position := by simp [firstPos]
        rw [← hfp, hd]
      rw [hs0]
      exact (hmem s'' (List.mem_of_mem_head? hs'')).1

/-- Witness for C5 at a concrete two-stop list missing both brackets. -/
theorem gradient_new_normalizes_witness :
    firstPos (Gradient.new [⟨1/4, ⟨1, 0, 0, 1⟩⟩, ⟨3/4, ⟨0, 0, 1, 1⟩⟩] SpreadMode.Pad
      ⟨1, 0, 0, 1, 0, 0⟩ ⟨1, 0, 0, 1, 0, 0⟩).points = 0 ∧
    lastPos (Gradient.new [⟨1/4, ⟨1, 0, 0, 1⟩⟩, ⟨3/4, ⟨0, 0, 1, 1⟩⟩] SpreadMode.Pad
      ⟨1, 0, 0, 1, 0, 0⟩ ⟨1, 0, 0, 1, 0, 0⟩).points = 1 ∧
    List.Chain' (· ≤ ·) ((Gradient.new [⟨1/4, ⟨1, 0, 0, 1⟩⟩, ⟨3/4, ⟨0, 0, 1, 1⟩⟩] SpreadMode.Pad
      ⟨1, 0, 0, 1, 0, 0⟩ ⟨1, 0, 0, 1, 0, 0⟩).points.map GradientStop.position) :=
  gradient_new_normalizes [⟨1/4, ⟨1, 0, 0, 1⟩⟩, ⟨3/4, ⟨0, 0, 1, 1⟩⟩] SpreadMode.Pad
    ⟨1, 0, 0, 1, 0, 0⟩ ⟨1, 0, 0, 1, 0, 0⟩ (by norm_num)

theorem bound01_id (p : Scalar) (h0 : 0 ≤ p) (h1 : p ≤ 1) : bound p 0 1 = p := by
  unfold bound
  rw [max_eq_right h0, min_eq_right h1]

/-- Helper for the spec-side predicate: every gap from the running prev
value through the list is nearly equal to the gap g. -/
def gapsNearFirst (g : Scalar) : Scalar → List Scalar → Bool
  | _, [] => true
  | prev, x :: xs => isNearlyEqual g (x - prev) && gapsNearFirst g x xs

/-- Follows the claim's words (refinement side): every consecutive gap of
the position list is nearly equal to the first gap. -/
def gapsNearlyUniform : List Scalar → Bool
  | a :: b :: rest => gapsNearFirst (b - a) a (b :: rest)
  | _ => true

theorem normStops_flag (l : List GradientStop) :
    ∀ (prev step : Scalar), 0 ≤ prev → prev ≤ 1 →
    (normStops l prev step).2 =
      gapsNearFirst step prev ((normStops l prev step).1.map GradientStop.position) := by
  induction l with
  | nil =>
    intro prev step h0 h1
    simp [normStops, gapsNearFirst]
  | cons s tail ih =>
    intro prev step h0 h1
    cases tail with
    | nil =>
      have hone : clamp01 (1 : Scalar) = 1 := clamp01_of_mem 1 (by norm_num) (by norm_num)
      simp [normStops, gapsNearFirst, hone]
    | cons t rest =>
      have hb := bound_mem s.position prev h1
      have h0c : (0 : Scalar) ≤ bound s.position prev 1 := le_trans h0 hb.1
      have hcl := clamp01_of_mem _ h0c hb.2
      have hih := ih (bound s.position prev 1) step h0c hb.2
      simp only [normStops, List.map_cons, gapsNearFirst, hcl]
      rw [hih]

theorem gradient_new_flag_eq (stops : List GradientStop) (tm : SpreadMode)
    (lt ptu : Transform) :
    (Gradient.new stops tm lt ptu).has_uniform_stops =
      (normStops ((withDummies stops).drop (startIndex stops)) 0
        (firstPos ((withDummies stops).drop (startIndex stops)))).2 := rfl

theorem withDummies_first_zero_cons (s0 s1 : GradientStop) (t : List GradientStop)
    (hd : firstPos (s0 :: s1 :: t) = 0) :
    withDummies (s0 :: s1 :: t) = s0 :: s1 ::
      (if lastPos (s0 :: s1 :: t) ≠ 1 then
        t ++ [GradientStop.new 1 (lastColor (s0 :: s1 :: t))]
      else t) := by
  unfold withDummies
  split_ifs
  · rename_i h1 h2
    exact absurd hd h1
  · rename_i h1 h2
    exact absurd hd h1
  · rename_i h1 h2
    simp
  · rename_i h1 h2
    rfl

/-- Counterexample for C6: for the caller list [(1/2, c), (1, c)] the
constructor inserts a synthetic first stop, the normalized positions are
[0, 1/2, 1] whose consecutive gaps are all exactly the first gap 1/2, yet
has_uniform_stops is false: the source takes uniform_step from
points[start_index].position after the dummy insertion, which is the
synthetic stop at 0, not the first gap. -/
theorem gradient_uniform_flag_counterexample :
    gapsNearlyUniform (((Gradient.new [⟨1/2, ⟨1, 0, 0, 1⟩⟩, ⟨1, ⟨1, 0, 0, 1⟩⟩]
        SpreadMode.Pad ⟨1, 0, 0, 1, 0, 0⟩ ⟨1, 0, 0, 1, 0, 0⟩).points).map
      GradientStop.position) = true ∧
    (Gradient.new [⟨1/2, ⟨1, 0, 0, 1⟩⟩, ⟨1, ⟨1, 0, 0, 1⟩⟩]
        SpreadMode.Pad ⟨1, 0, 0, 1, 0, 0⟩ ⟨1, 0, 0, 1, 0, 0⟩).has_uniform_stops = false := by
  constructor
  · norm_num [Gradient.new, withDummies, startIndex, firstPos, lastPos, firstColor,
      lastColor, GradientStop.new, clamp01, bound, normStops, gapsNearlyUniform,
      gapsNearFirst, isNearlyEqual, SCALAR_NEARLY_ZERO]
  · norm_num [Gradient.new, withDummies, startIndex, firstPos, lastPos, firstColor,
      lastColor, GradientStop.new, clamp01, bound, normStops, gapsNearlyUniform,
      gapsNearFirst, isNearlyEqual, SCALAR_NEARLY_ZERO]
    rw [abs_of_nonneg (by norm_num : (0 : Scalar) ≤ 1/2)]
    norm_num

theorem flag_spec_core (s0 s1 : GradientStop) (t2 : List GradientStop)
    (hs0 : s0.position = 0)
    (hnh : ∃ nh ntail, (normStops (s1 :: t2) 0 s1.position).1 = nh :: ntail ∧
      nh.position = s1.position) :
    (normStops (s1 :: t2) 0 s1.position).2 =
      gapsNearlyUniform ((s0 :: (normStops (s1 :: t2) 0 s1.position).1).map
        GradientStop.position) := by
  obtain ⟨nh, ntail, hn, hnp⟩ := hnh
  have hflag := normStops_flag (s1 :: t2) 0 s1.position (le_refl 0) (by norm_num)
  rw [hflag, hn, List.map_cons, List.map_cons]
  show gapsNearFirst s1.position 0 (nh.position :: ntail.map GradientStop.position) =
    gapsNearlyUniform (s0.position :: nh.position :: ntail.map GradientStop.position)
  rw [hs0, hnp]
  simp only [gapsNearlyUniform, sub_zero]

/-- C6 amended: when the caller's first stop sits exactly at position 0
(so no synthetic first stop is inserted) and all stop positions are in
[0,1] (the NormalizedF32 invariant), has_uniform_stops is true exactly
when every consecutive gap between the normalized stop positions is
nearly equal (within the numeric tolerance) to the first gap.  When a
synthetic first stop is inserted the source compares the gaps against
points[start_index].position = 0 instead, and the claim as stated fails. -/
theorem gradient_uniform_flag_eq_spec (stops : List GradientStop) (tm : SpreadMode)
    (lt ptu : Transform) (h : 2 ≤ stops.length) (hd : firstPos stops = 0)
    (hin : ∀ s ∈ stops, 0 ≤ s.position ∧ s.position ≤ 1) :
    (Gradient.new stops tm lt ptu).has_uniform_stops =
      gapsNearlyUniform ((Gradient.new stops tm lt ptu).points.map GradientStop.position) := by
  match stops, h, hd, hin with
  | s0 :: s1 :: t, _, hd, hin =>
  have hs1 := hin s1 (by simp)
  have hsi : startIndex (s0 :: s1 :: t) = 1 := by simp [startIndex, hd]
  have hs0 : s0.position = 0 := by simpa [firstPos] using hd
  rw [gradient_new_flag_eq, gradient_new_points_eq, hsi,
    withDummies_first_zero_cons s0 s1 t hd]
  simp only [List.take_succ_cons, List.take_zero, List.drop_succ_cons, List.drop_zero,
    List.singleton_append]
  have hstep : ∀ l2 : List GradientStop, firstPos (s1 :: l2) = s1.position := by
    intro l2; simp [firstPos]
  rw [hstep]
  apply flag_spec_core s0 s1 _ hs0
  by_cases hl : lastPos (s0 :: s1 :: t) ≠ 1
  · rw [if_pos hl]
    obtain ⟨r, rs, hr⟩ := List.exists_cons_of_ne_nil
      (l := t ++ [GradientStop.new 1 (lastColor (s0 :: s1 :: t))]) (by simp)
    rw [hr]
    refine ⟨⟨clamp01 (bound s1.position 0 1), s1.color⟩,
      (normStops (r :: rs) (bound s1.position 0 1) s1.position).1,
      by simp [normStops], ?_⟩
    rw [bound01_id s1.position hs1.1 hs1.2]
    exact clamp01_of_mem _ hs1.1 hs1.2
  · rw [if_neg hl]
    push_neg at hl
    cases t with
    | nil =>
      have hp1 : s1.position = 1 := by simpa [lastPos] using hl
      refine ⟨⟨clamp01 1, s1.color⟩, [], by simp [normStops], ?_⟩
      rw [clamp01_of_mem 1 (by norm_num) (by norm_num), hp1]
    | cons r rs =>
      refine ⟨⟨clamp01 (bound s1.position 0 1), s1.color⟩,
        (normStops (r :: rs) (bound s1.position 0 1) s1.position).1,
        by simp [normStops], ?_⟩
      rw [bound01_id s1.position hs1.1 hs1.2]
      exact clamp01_of_mem _ hs1.1 hs1.2

/-- Witness for the amended C6 at a concrete list with uniform gaps. -/
theorem gradient_uniform_flag_eq_spec_witness :
    (Gradient.new [⟨0, ⟨1, 0, 0, 1⟩⟩, ⟨1/2, ⟨0, 0, 1, 1⟩⟩] SpreadMode.Pad
      ⟨1, 0, 0, 1, 0, 0⟩ ⟨1, 0, 0, 1, 0, 0⟩).has_uniform_stops =
    gapsNearlyUniform ((Gradient.new [⟨0, ⟨1, 0, 0, 1⟩⟩, ⟨1/2, ⟨0, 0, 1, 1⟩⟩] SpreadMode.Pad
      ⟨1, 0, 0, 1, 0, 0⟩ ⟨1, 0, 0, 1, 0, 0⟩).points.map GradientStop.position) :=
  gradient_uniform_flag_eq_spec [⟨0, ⟨1, 0, 0, 1⟩⟩, ⟨1/2, ⟨0, 0, 1, 1⟩⟩] SpreadMode.Pad
    ⟨1, 0, 0, 1, 0, 0⟩ ⟨1, 0, 0, 1, 0, 0⟩ (by norm_num) (by norm_num [firstPos])
    (by intro s hs
        simp only [List.mem_cons, List.not_mem_nil, or_false] at hs
        rcases hs with rfl | rfl <;> norm_num)

/-! The integer size type (src/int_size.rs). -/

/-- Modelled from the spec: LengthU32, a non-zero length (external
newtype over u32; u32 values are modelled as naturals, the zero test
being the only arithmetic involved). -/
def LengthU32 : Type := {n : ℕ // n ≠ 0}

instance : DecidableEq LengthU32 := fun a b =>
  decidable_of_iff (a.val = b.val) Subtype.ext_iff.symm

/-- Modelled from the spec: LengthU32 construction fails exactly on zero. -/
def LengthU32.new (n : ℕ) : Option LengthU32 :=
  if h : n = 0 then none else some ⟨n, h⟩

/-- Embeds IntSize from src/int_size.rs. -/
structure IntSize where
  width : LengthU32
  height : LengthU32
deriving DecidableEq

/-- Embeds IntSize::from_wh from src/int_size.rs; the two fallible
LengthU32 constructions chain as in the source. -/
def IntSize.from_wh (width height : ℕ) : Option IntSize :=
  (LengthU32.new width).bind fun w => (LengthU32.new height).map fun h => ⟨w, h⟩

/-- Embeds IntSize::width from src/int_size.rs. -/
def IntSize.width_value (s : IntSize) : ℕ := s.width.val

/-- Embeds IntSize::height from src/int_size.rs. -/
def IntSize.height_value (s : IntSize) : ℕ := s.height.val

/-- C9: IntSize::from_wh returns None exactly when width or height is 0,
and otherwise returns a size whose width() and height() are the given
values, rejecting zero-dimension buffers at construction. -/
theorem int_size_from_wh_spec (w h : ℕ) :
    (IntSize.from_wh w h = none ↔ w = 0 ∨ h = 0) ∧
    ((IntSize.from_wh w h).map (fun s => (s.width_value, s.height_value)) =
      if w = 0 ∨ h = 0 then none else some (w, h)) := by
  by_cases hw : w = 0 <;> by_cases hh : h = 0 <;>
    simp [IntSize.from_wh, LengthU32.new, IntSize.width_value, IntSize.height_value, hw, hh]

/-! The raster-pipeline stage construction of Gradient::append_stages. -/

/-- Modelled from the spec: a pipeline color record with one scalar per
channel (raster_pipeline's GradientColor, outside src/). -/
structure GradientColor where
  r : Scalar
  g : Scalar
  b : Scalar
  a : Scalar
deriving DecidableEq, Repr

/-- Models GradientColor::from(Color): channel-wise copy. -/
def GradientColor.ofColor (c : Color) : GradientColor := ⟨c.red, c.green, c.blue, c.alpha⟩

/-- Embeds EvenlySpaced2StopGradientCtx (declared in the raster pipeline,
populated by src/shaders/gradient.rs lines 141-149). -/
structure EvenlySpaced2StopGradientCtx where
  factor : GradientColor
  bias : GradientColor
deriving DecidableEq, Repr

/-- Embeds GradientCtx: the parallel factor/bias/t-value arrays of the
general search-based gradient stage. -/
structure GradientCtx where
  len : Nat
  factors : List GradientColor
  biases : List GradientColor
  t_values : List Scalar
deriving DecidableEq, Repr

/-- Modelled from the spec: push_const_color appends a constant interval,
zero factor with the color as bias (GradientCtx lives outside src/). -/
def GradientCtx.push_const_color (ctx : GradientCtx) (c : GradientColor) : GradientCtx :=
  { ctx with factors := ctx.factors ++ [⟨0, 0, 0, 0⟩], biases := ctx.biases ++ [c] }

/-- Modelled from the spec: the pipeline as an ordered list of stage tags,
each paired with its context record where one exists; Custom stands for
stages pushed by the shader-specific callback. -/
inductive StageItem where
  | SeedShader
  | TransformStage (t : Transform)
  | ReflectX1
  | RepeatX1
  | PadX1
  | EvenlySpaced2StopGradient (ctx : EvenlySpaced2StopGradientCtx)
  | GradientStage (ctx : GradientCtx)
  | Premultiply
  | Custom (tag : Nat)
deriving DecidableEq, Repr

/-- The default gradient stop used to model the source's direct indexing. -/
def gsDefault : GradientStop := ⟨0, ⟨0, 0, 0, 0⟩⟩

/-- first_stop of Gradient::append_stages (lines 171-183): skip the
synthetic first stop when it duplicates its neighbor's color. -/
def firstStopIndex (pts : List GradientStop) : Nat :=
  if pts.length > 2 then
    if (pts.getD 0 gsDefault).color ≠ (pts.getD 1 gsDefault).color then 0 else 1
  else 0

/-- last_stop of Gradient::append_stages (lines 171-183). -/
def lastStopIndex (pts : List GradientStop) : Nat :=
  if pts.length > 2 then
    if (pts.getD (pts.length - 2) gsDefault).color ≠ (pts.getD (pts.length - 1) gsDefault).color
    then pts.length - 1 else pts.length - 2
  else 1

/-- The per-interval factor of the general gradient loop (lines 197-202). -/
def mkFactor (c_l c_r : GradientColor) (t_l t_r : Scalar) : GradientColor :=
  ⟨(c_r.r - c_l.r) / (t_r - t_l), (c_r.g - c_l.g) / (t_r - t_l),
   (c_r.b - c_l.b) / (t_r - t_l), (c_r.a - c_l.a) / (t_r - t_l)⟩

/-- The per-interval bias of the general gradient loop (lines 205-212). -/
def mkBias (c_l f : GradientColor) (t_l : Scalar) : GradientColor :=
  ⟨c_l.r - f.r * t_l, c_l.g - f.g * t_l, c_l.b - f.b * t_l, c_l.a - f.a * t_l⟩

/-- The stop loop of Gradient::append_stages (lines 190-219): for each
strictly increasing interval push factor, bias and left t-value; returns
the updated context and the final (t_l, c_l). -/
def gradLoop : GradientCtx → Scalar → GradientColor → List GradientStop →
    GradientCtx × Scalar × GradientColor
  | ctx, t_l, c_l, [] => (ctx, t_l, c_l)
  | ctx, t_l, c_l, s :: rest =>
    let t_r := s.position
    let c_r := GradientColor.ofColor s.color
    let ctx2 := if t_l < t_r then
        { ctx with
          factors := ctx.factors ++ [mkFactor c_l c_r t_l t_r],
          biases := ctx.biases ++ [mkBias c_l (mkFactor c_l c_r t_l t_r) t_l],
          t_values := ctx.t_values ++ [clamp01 t_l] }
      else ctx
    gradLoop ctx2 t_r c_r rest

/-- The GradientCtx built by the general branch of Gradient::append_stages
(lines 153-237): const color for the first kept stop, the interval loop,
const color for the last kept stop, then zero padding of the factor and
bias arrays up to 16 entries. -/
def buildGradientCtx (g : Gradient) : GradientCtx :=
  let first_stop := firstStopIndex g.points
  let last_stop := lastStopIndex g.points
  let t_first := (g.points.getD first_stop gsDefault).position
  let c_first := GradientColor.ofColor (g.points.getD first_stop gsDefault).color
  let ctx1 : GradientCtx :=
    { (GradientCtx.mk 0 [] [] []).push_const_color c_first with t_values := [0] }
  let res := gradLoop ctx1 t_first c_first
    ((g.points.drop (first_stop + 1)).take (last_stop - first_stop))
  let ctx2 := res.1.push_const_color res.2.2
  let ctx3 := { ctx2 with t_values := ctx2.t_values ++ [clamp01 res.2.1],
                          len := ctx2.factors.length }
  { ctx3 with
    factors := ctx3.factors ++ List.replicate (16 - ctx3.factors.length) ⟨0, 0, 0, 0⟩,
    biases := ctx3.biases ++ List.replicate (16 - ctx3.factors.length) ⟨0, 0, 0, 0⟩ }

/-- The tiling stage pushed by Gradient::append_stages (lines 116-132):
reflect and repeat push their fold stage; pad clamps only when the stops
are evenly spaced. -/
def tileStages (g : Gradient) : List StageItem :=
  match g.tile_mode with
  | SpreadMode.Reflect => [StageItem.ReflectX1]
  | SpreadMode.Repeat => [StageItem.RepeatX1]
  | SpreadMode.Pad => if g.has_uniform_stops then [StageItem.PadX1] else []

/-- The gradient-evaluation stage pushed by Gradient::append_stages
(lines 134-238): the closed-form two-stop stage when the stored list has
exactly two stops, the general search stage otherwise. -/
def gradientShaderStages (g : Gradient) : List StageItem :=
  if g.points.length = 2 then
    [StageItem.EvenlySpaced2StopGradient
      ⟨⟨(g.points.getD 1 gsDefault).color.red - (g.points.getD 0 gsDefault).color.red,
        (g.points.getD 1 gsDefault).color.green - (g.points.getD 0 gsDefault).color.green,
        (g.points.getD 1 gsDefault).color.blue - (g.points.getD 0 gsDefault).color.blue,
        (g.points.getD 1 gsDefault).color.alpha - (g.points.getD 0 gsDefault).color.alpha⟩,
       GradientColor.ofColor (g.points.getD 0 gsDefault).color⟩]
  else [StageItem.GradientStage (buildGradientCtx g)]

/-- Embeds Gradient::append_stages from src/shaders/gradient.rs: seed,
coordinate transform, the caller's shader stages, tiling, gradient
evaluation, optional premultiply, then the post pipeline.  The
push_stages callback is modelled by the stage lists it appends to the
main and post pipelines. -/
def Gradient.append_stages (g : Gradient) (pushMain pushPost : List StageItem) :
    List StageItem :=
  [StageItem.SeedShader, StageItem.TransformStage g.points_to_unit] ++ pushMain ++
    tileStages g ++ gradientShaderStages g ++
    (if g.colors_full_alpha then [] else [StageItem.Premultiply]) ++ pushPost

/-- Modelled from the spec: evaluation of the two-stop stage is
bias + factor * t per channel, with no search. -/
def evalEvenly2 (ctx : EvenlySpaced2StopGradientCtx) (t : Scalar) : GradientColor :=
  ⟨ctx.bias.r + ctx.factor.r * t, ctx.bias.g + ctx.factor.g * t,
   ctx.bias.b + ctx.factor.b * t, ctx.bias.a + ctx.factor.a * t⟩

/-- C7: for a gradient whose stored stop list is exactly two stops,
append_stages takes the closed-form path: the pipeline receives the
EvenlySpaced2StopGradient stage, whose context holds per channel
factor = second color minus first color and bias = first color, instead
of the search-based Gradient stage, and evaluating that context is
bias + factor times t, the linear blend of the two colors. -/
theorem append_stages_two_stop (g : Gradient) (s0 s1 : GradientStop)
    (pm pp : List StageItem) (t : Scalar) (h : g.points = [s0, s1]) :
    g.append_stages pm pp =
      [StageItem.SeedShader, StageItem.TransformStage g.points_to_unit] ++ pm ++
        tileStages g ++
        [StageItem.EvenlySpaced2StopGradient
          ⟨⟨s1.color.red - s0.color.red, s1.color.green - s0.color.green,
            s1.color.blue - s0.color.blue, s1.color.alpha - s0.color.alpha⟩,
           GradientColor.ofColor s0.color⟩] ++
        (if g.colors_full_alpha then [] else [StageItem.Premultiply]) ++ pp ∧
    evalEvenly2
      ⟨⟨s1.color.red - s0.color.red, s1.color.green - s0.color.green,
        s1.color.blue - s0.color.blue, s1.color.alpha - s0.color.alpha⟩,
       GradientColor.ofColor s0.color⟩ t =
      ⟨s0.color.red + (s1.color.red - s0.color.red) * t,
       s0.color.green + (s1.color.green - s0.color.green) * t,
       s0.color.blue + (s1.color.blue - s0.color.blue) * t,
       s0.color.alpha + (s1.color.alpha - s0.color.alpha) * t⟩ := by
  constructor
  · unfold Gradient.append_stages gradientShaderStages
    rw [h]
    simp
  · rfl

/-- Witness for C7 at the concrete red-to-blue two-stop gradient. -/
theorem append_stages_two_stop_witness :
    (Gradient.new [⟨0, ⟨1, 0, 0, 1⟩⟩, ⟨1, ⟨0, 0, 1, 1⟩⟩] SpreadMode.Pad
        ⟨1, 0, 0, 1, 0, 0⟩ ⟨1, 0, 0, 1, 0, 0⟩).append_stages [] [] =
      [StageItem.SeedShader, StageItem.TransformStage
          (Gradient.new [⟨0, ⟨1, 0, 0, 1⟩⟩, ⟨1, ⟨0, 0, 1, 1⟩⟩] SpreadMode.Pad
            ⟨1, 0, 0, 1, 0, 0⟩ ⟨1, 0, 0, 1, 0, 0⟩).points_to_unit] ++ [] ++
        tileStages (Gradient.new [⟨0, ⟨1, 0, 0, 1⟩⟩, ⟨1, ⟨0, 0, 1, 1⟩⟩] SpreadMode.Pad
          ⟨1, 0, 0, 1, 0, 0⟩ ⟨1, 0, 0, 1, 0, 0⟩) ++
        [StageItem.EvenlySpaced2StopGradient
          ⟨⟨(⟨0, 0, 1, 1⟩ : Color).red - (⟨1, 0, 0, 1⟩ : Color).red,
            (⟨0, 0, 1, 1⟩ : Color).green - (⟨1, 0, 0, 1⟩ : Color).green,
            (⟨0, 0, 1, 1⟩ : Color).blue - (⟨1, 0, 0, 1⟩ : Color).blue,
            (⟨0, 0, 1, 1⟩ : Color).alpha - (⟨1, 0, 0, 1⟩ : Color).alpha⟩,
           GradientColor.ofColor ⟨1, 0, 0, 1⟩⟩] ++
        (if (Gradient.new [⟨0, ⟨1, 0, 0, 1⟩⟩, ⟨1, ⟨0, 0, 1, 1⟩⟩] SpreadMode.Pad
            ⟨1, 0, 0, 1, 0, 0⟩ ⟨1, 0, 0, 1, 0, 0⟩).colors_full_alpha then []
          else [StageItem.Premultiply]) ++ [] ∧
    evalEvenly2
      ⟨⟨(⟨0, 0, 1, 1⟩ : Color).red - (⟨1, 0, 0, 1⟩ : Color).red,
        (⟨0, 0, 1, 1⟩ : Color).green - (⟨1, 0, 0, 1⟩ : Color).green,
        (⟨0, 0, 1, 1⟩ : Color).blue - (⟨1, 0, 0, 1⟩ : Color).blue,
        (⟨0, 0, 1, 1⟩ : Color).alpha - (⟨1, 0, 0, 1⟩ : Color).alpha⟩,
       GradientColor.ofColor ⟨1, 0, 0, 1⟩⟩ (1/2) =
      ⟨(⟨1, 0, 0, 1⟩ : Color).red + ((⟨0, 0, 1, 1⟩ : Color).red - (⟨1, 0, 0, 1⟩ : Color).red) * (1/2),
       (⟨1, 0, 0, 1⟩ : Color).green + ((⟨0, 0, 1, 1⟩ : Color).green - (⟨1, 0, 0, 1⟩ : Color).green) * (1/2),
       (⟨1, 0, 0, 1⟩ : Color).blue + ((⟨0, 0, 1, 1⟩ : Color).blue - (⟨1, 0, 0, 1⟩ : Color).blue) * (1/2),
       (⟨1, 0, 0, 1⟩ : Color).alpha + ((⟨0, 0, 1, 1⟩ : Color).alpha - (⟨1, 0, 0, 1⟩ : Color).alpha) * (1/2)⟩ :=
  append_stages_two_stop
    (Gradient.new [⟨0, ⟨1, 0, 0, 1⟩⟩, ⟨1, ⟨0, 0, 1, 1⟩⟩] SpreadMode.Pad
      ⟨1, 0, 0, 1, 0, 0⟩ ⟨1, 0, 0, 1, 0, 0⟩)
    ⟨0, ⟨1, 0, 0, 1⟩⟩ ⟨1, ⟨0, 0, 1, 1⟩⟩ [] [] (1/2) (by decide)
